import Mathlib

/- Formal model of the autopilot core of this repository:
   crates/autopilot/src/run_loop.rs (competition orchestrator, execution
   director, settlement waiter, run loop) and
   crates/autopilot/src/driver_api.rs (driver HTTP client).

   Machine integers (u64 block numbers, u16 HTTP status codes, bytes) are
   modelled as Nat with explicit saturation where the source saturates.
   The stateful polling loop of the settlement waiter is modelled as a
   fuel-indexed recursive function over an explicit environment recording
   what each external call (block stream read, settlement-event index
   query, transaction lookup) returns. -/

/-- Modelled from the spec: the driver response score is a 64-bit float
("`score` (finite 64-bit float)", §3) ranked by Rust's `f64::total_cmp`
(IEEE-754 totalOrder).  The `driver_model::solve` crate that declares the
field is not under `src/`.  Finite values are modelled as rationals (every
finite f64 is a rational); the −0.0/+0.0 distinction and distinct NaN
payloads are collapsed, which no claim here depends on. -/
inductive Score where
  | negNaN : Score
  | negInf : Score
  | val : ℚ → Score
  | posInf : Score
  | posNaN : Score
deriving DecidableEq, Repr

/-- Embedding of `f64::total_cmp` (used by the winner-selection sort at
run_loop.rs:74) restricted to the values representable in `Score`. -/
def Score.totalCmp (a b : Score) : Ordering :=
  match a, b with
  | .negNaN, .negNaN => .eq
  | .negNaN, _ => .lt
  | _, .negNaN => .gt
  | .negInf, .negInf => .eq
  | .negInf, _ => .lt
  | _, .negInf => .gt
  | .val p, .val q => if p < q then .lt else if p = q then .eq else .gt
  | .val _, _ => .lt
  | _, .val _ => .gt
  | .posInf, .posInf => .eq
  | .posInf, .posNaN => .lt
  | .posNaN, .posInf => .gt
  | .posNaN, .posNaN => .eq

/-- The (total) order induced by `total_cmp`: `a` precedes `b` when the
comparator does not answer `Greater`.  This is exactly the relation in
which `sort_unstable_by` at run_loop.rs:74 leaves the list sorted. -/
def scoreLe (a b : Score) : Prop := Score.totalCmp a b ≠ .gt

instance : DecidableRel scoreLe := fun a b =>
  inferInstanceAs (Decidable (Score.totalCmp a b ≠ .gt))

/-- Finiteness of a score: true exactly on the finite band (neither an
infinity nor a NaN). -/
def Score.isFinite : Score → Bool
  | .val _ => true
  | _ => false

@[simp] theorem scoreLe_negNaN_left (b : Score) : scoreLe .negNaN b := by
  cases b <;> simp [scoreLe, Score.totalCmp]

@[simp] theorem scoreLe_posNaN_right (a : Score) : scoreLe a .posNaN := by
  cases a <;> simp [scoreLe, Score.totalCmp]

@[simp] theorem scoreLe_negNaN_right_iff (a : Score) :
    scoreLe a .negNaN ↔ a = .negNaN := by
  cases a <;> simp [scoreLe, Score.totalCmp]

@[simp] theorem scoreLe_posNaN_left_iff (b : Score) :
    scoreLe .posNaN b ↔ b = .posNaN := by
  cases b <;> simp [scoreLe, Score.totalCmp]

@[simp] theorem scoreLe_negInf_left_iff (b : Score) :
    scoreLe .negInf b ↔ b ≠ .negNaN := by
  cases b <;> simp [scoreLe, Score.totalCmp]

@[simp] theorem scoreLe_negInf_right_iff (a : Score) :
    scoreLe a .negInf ↔ a = .negNaN ∨ a = .negInf := by
  cases a <;> simp [scoreLe, Score.totalCmp]

@[simp] theorem scoreLe_posInf_right_iff (a : Score) :
    scoreLe a .posInf ↔ a ≠ .posNaN := by
  cases a <;> simp [scoreLe, Score.totalCmp]

@[simp] theorem scoreLe_posInf_left_iff (b : Score) :
    scoreLe .posInf b ↔ b = .posInf ∨ b = .posNaN := by
  cases b <;> simp [scoreLe, Score.totalCmp]

@[simp] theorem scoreLe_val_iff (p q : ℚ) : scoreLe (.val p) (.val q) ↔ p ≤ q := by
  simp only [scoreLe, Score.totalCmp]
  split_ifs with h1 h2
  · simpa using le_of_lt h1
  · simpa using le_of_eq h2
  · have hqp : q < p := lt_of_le_of_ne (not_lt.mp h1) (fun e => h2 e.symm)
    constructor
    · intro hc
      exact absurd rfl hc
    · intro hc
      exact absurd hc (not_le.mpr hqp)

theorem scoreLe_refl (a : Score) : scoreLe a a := by
  cases a <;> simp

theorem scoreLe_trans {a b c : Score} (hab : scoreLe a b) (hbc : scoreLe b c) :
    scoreLe a c := by
  cases a <;> cases b <;> cases c <;> simp_all <;> linarith

theorem scoreLe_antisymm {a b : Score} (hab : scoreLe a b) (hba : scoreLe b a) :
    a = b := by
  cases a <;> cases b <;> simp_all <;> linarith

theorem scoreLe_total (a b : Score) : scoreLe a b ∨ scoreLe b a := by
  cases a <;> cases b <;> simp_all <;> exact le_total _ _

instance : IsAntisymm Score scoreLe := ⟨fun _ _ => scoreLe_antisymm⟩
instance : IsTrans Score scoreLe := ⟨fun _ _ _ => scoreLe_trans⟩
instance : IsTotal Score scoreLe := ⟨scoreLe_total⟩

/-- Modelled from the spec: `SolveResponse` = `{solution_id (string), score}`
(§3); the `driver_model::solve::Response` type is not under `src/`. -/
structure Response where
  id : String
  score : Score
deriving DecidableEq, Repr

/-- Modelled from the spec: an order's class is one of Market, Liquidity,
Limit{surplus_fee?} (§3); the `model::order::OrderClass` type is not under
`src/`.  The optional surplus fee (a 256-bit unsigned integer) is a Nat. -/
inductive OrderClass where
  | market
  | liquidity
  | limit (surplus_fee : Option Nat)
deriving DecidableEq, Repr

/-- Modelled from the spec: the part of `model::order::Order` (not under
`src/`) that the claims' code reads; the class lives at
`order.metadata.class` in the source and is flattened to one field here. -/
structure Order where
  uid : Nat
  orderClass : OrderClass
deriving DecidableEq, Repr

/-- Modelled from the spec: the auction snapshot (§3);
`model::auction::Auction` is not under `src/`.  Only the order list is
consumed by the code under the claims. -/
structure Auction where
  orders : List Order
deriving DecidableEq, Repr

/-- The skip condition of `RunLoop::solve` (run_loop.rs:99-107): every
order's class hits the match arm returning true, i.e. Market ↦ false,
Liquidity ↦ true, Limit(_) ↦ false. -/
def allLiquidity (orders : List Order) : Bool :=
  orders.all fun o =>
    match o.orderClass with
    | .market => false
    | .liquidity => true
    | .limit _ => false

/-- One driver's solve outcome: `Ok(response)` or an error message (timeout,
transport, bad status, bad JSON - all collapsed into `anyhow::Error` by the
source). -/
abbrev DriverResult := Except String Response

/-- The collection step of `RunLoop::solve` (run_loop.rs:166-175): pair each
driver's result with its index (`enumerate`) and keep exactly the `Ok`
responses (`filter_map`); errors are logged at warn and dropped. -/
def solveCollect (results : List DriverResult) : List (Nat × Response) :=
  results.enum.filterMap fun ir =>
    match ir.2 with
    | .ok resp => some (ir.1, resp)
    | .error _ => none

/-- `RunLoop::solve` (run_loop.rs:98-176) with the external driver calls
abstracted into the list of their outcomes, one entry per configured driver.
Returns the successful responses paired with the driver index, together with
the number of drivers contacted.  When every order's class is Liquidity the
function returns `Default::default()` - the empty list - before building a
request or contacting any driver. -/
def solve (auction : Auction) (driverResults : List DriverResult) :
    List (Nat × Response) × Nat :=
  if allLiquidity auction.orders then ([], 0)
  else (solveCollect driverResults, driverResults.length)

/-- The comparator handed to `sort_unstable_by` at run_loop.rs:74, on the
`(driver index, response)` pairs: compare the scores with `total_cmp`. -/
def pairLe (a b : Nat × Response) : Prop := scoreLe a.2.score b.2.score

instance : DecidableRel pairLe := fun _ b =>
  inferInstanceAs (Decidable (scoreLe _ b.2.score))

/-- A list left as `sort_unstable_by(total_cmp)` leaves it: pairwise
non-descending under the comparator. -/
def sortedByScore (l : List (Nat × Response)) : Prop := l.Sorted pairLe

instance (l : List (Nat × Response)) : Decidable (sortedByScore l) :=
  inferInstanceAs (Decidable (List.Sorted pairLe l))

/-- The winner taken at run_loop.rs:77: `solutions.pop()`, the last element
of the sorted vector. -/
def winner (sorted : List (Nat × Response)) : Option (Nat × Response) :=
  sorted.getLast?

/-- Number of `execute` calls issued by `single_run_` (run_loop.rs:77-88):
one when `pop()` yields a winner, zero when the vector is empty. -/
def executeCallCount (sorted : List (Nat × Response)) : Nat :=
  match winner sorted with
  | some _ => 1
  | none => 0

/-- The selection pipeline of `single_run_` (run_loop.rs:70-77).
`shuffle` (line 73) is modelled nondeterministically: `shuffled` is some
permutation of the collected solutions.  `sort_unstable_by` (line 74) is
modelled by its documented contract: `sorted` is a permutation of `shuffled`
that is sorted under the comparator (Rust documents `sort_unstable_by` as
"not stable", i.e. it may reorder equal elements, and fixes nothing more). -/
def selection (collected shuffled sorted : List (Nat × Response)) : Prop :=
  List.Perm shuffled collected ∧ List.Perm sorted shuffled ∧ sortedByScore sorted

/-- An Ethereum transaction as consumed by the waiter: its hash and its
calldata bytes (`input`); `web3::types::Transaction`, external crate. -/
structure Tx where
  hash : Nat
  input : List Nat
deriving DecidableEq, Repr

/-- Environment of one `wait_for_settlement_transaction` run: what the chain
observer answers at each step.  `blocks t` is the block number returned by
the t-th read of `current_block` (read 0 computes the window at
run_loop.rs:217; read t+1 is the loop check of iteration t at
run_loop.rs:237); `recent t lo hi` is the event-index answer
`recent_settlement_tx_hashes(lo..hi)` during iteration t; `txLookup h` is
the node's answer for hash `h`. -/
structure WaitEnv where
  blocks : Nat → Nat
  recent : Nat → Nat → Nat → Except String (List Nat)
  txLookup : Nat → Except String (Option Tx)

/-- u64::saturating_add, on the Nat model of u64. -/
def u64SatAdd (a b : Nat) : Nat := min (a + b) (2 ^ 64 - 1)

/-- The for-loop over fetched hashes (run_loop.rs:245-260): look each hash
up, silently skip vanished transactions, return the first transaction whose
calldata ends with the tag, and insert non-matching fetched hashes into the
seen set. -/
def scanHashes (env : WaitEnv) (tag : List Nat) :
    List Nat → List Nat → Except String (Option Tx × List Nat)
  | [], seen => .ok (none, seen)
  | h :: rest, seen =>
    match env.txLookup h with
    | .error e => .error e
    | .ok none => scanHashes env tag rest seen
    | .ok (some tx) =>
      if List.isSuffixOf tag tx.input then .ok (some tx, seen)
      else scanHashes env tag rest (h :: seen)

/-- The polling loop of `wait_for_settlement_transaction`
(run_loop.rs:233-264) exactly as written: iteration t re-reads the block
number and BREAKS - falling through to `Ok(None)` - when it is ≤ `deadline`
(run_loop.rs:237-239); otherwise it queries the event index over
`start..deadline+1`, retains the hashes not yet seen, and scans them.
`fuel` bounds the number of iterations; the result `none` means the fuel ran
out with the loop still running. -/
def waitLoop (env : WaitEnv) (tag : List Nat) (start deadline : Nat) :
    Nat → Nat → List Nat → Option (Except String (Option Tx))
  | 0, _, _ => none
  | fuel + 1, t, seen =>
    if env.blocks (t + 1) ≤ deadline then some (.ok none)
    else
      match env.recent t start (deadline + 1) with
      | .error e => some (.error e)
      | .ok hashes =>
        match scanHashes env tag (hashes.filter fun h => !(seen.contains h)) seen with
        | .error e => some (.error e)
        | .ok (some tx, _) => some (.ok (some tx))
        | .ok (none, seen2) => waitLoop env tag start deadline fuel (t + 1) seen2

/-- `RunLoop::wait_for_settlement_transaction` (run_loop.rs:209-266).
`startOffset` stands for the external constant `MAX_REORG_BLOCK_COUNT`
(shared::event_handling, not under `src/`; 64 per the spec §6) and
`maxWaitBlocks` for `⌈MAX_WAIT_TIME / network_block_interval⌉` computed at
run_loop.rs:215-216 (the f32 arithmetic is kept as a parameter).  The block
window is `start = current.saturating_sub(startOffset)` (Nat subtraction is
saturating) and `deadline = current.saturating_add(maxWaitBlocks)`
(run_loop.rs:217-219). -/
def wait_for_settlement_transaction (env : WaitEnv) (tag : List Nat)
    (startOffset maxWaitBlocks fuel : Nat) : Option (Except String (Option Tx)) :=
  let current := env.blocks 0
  let start := current - startOffset
  let deadline := u64SatAdd current maxWaitBlocks
  waitLoop env tag start deadline fuel 0 []

/-- Big-endian byte encoding: the `n` low-order bytes of `v`, most
significant first (`u64::to_be_bytes` is `natToBeBytes 8`). -/
def natToBeBytes : Nat → Nat → List Nat
  | 0, _ => []
  | n + 1, v => natToBeBytes n (v / 256) ++ [v % 256]

/-- Big-endian byte decoding, the left inverse of `natToBeBytes`. -/
def beBytesToNat (l : List Nat) : Nat :=
  l.foldl (fun acc b => acc * 256 + b) 0

/-- Modelled from the spec: `AuctionId` is unsigned 64-bit (§3); the
`model::auction::AuctionId` alias is not under `src/`. -/
abbrev AuctionId := Nat

/-- The request type of `driver_model::execute` as populated by
`RunLoop::execute`: auction id plus the byte tag. -/
structure ExecuteRequest where
  auction_id : AuctionId
  transaction_identifier : List Nat
deriving DecidableEq, Repr

/-- The request built at run_loop.rs:187-190:
`transaction_identifier = id.to_be_bytes()`. -/
def executeRequest (id : AuctionId) : ExecuteRequest :=
  { auction_id := id, transaction_identifier := natToBeBytes 8 id }

/-- A raw HTTP response: status code and body (the body is modelled as the
decoded text; no claim at hand depends on non-UTF-8 bodies). -/
structure HttpResponse where
  status : Nat
  body : String
deriving DecidableEq, Repr

/-- Driver-call failure classification of `Driver::request_response`
(driver_api.rs:68-79): transport failure on send, non-200 status carrying
the code and body text, or a 200 body that does not decode as JSON. -/
inductive DriverApiError where
  | transport (msg : String)
  | badStatus (code : Nat) (body : String)
  | badJson (body : String)
deriving DecidableEq, Repr

/-- `Driver::request_response` (driver_api.rs:43-80) from the point the
request has been sent: `send` is the transport outcome, `decode` the
`serde_json` deserialisation into the response type.  A status ≠ 200 fails
with the status code and body (driver_api.rs:75-78); a 200 status decodes
the body, failing when it is not valid JSON for the response type
(driver_api.rs:79). -/
def request_response {R : Type} (decode : String → Option R)
    (send : Except String HttpResponse) : Except DriverApiError R :=
  match send with
  | .error e => .error (.transport e)
  | .ok resp =>
    if resp.status ≠ 200 then .error (.badStatus resp.status resp.body)
    else
      match decode resp.body with
      | some r => .ok r
      | none => .error (.badJson resp.body)

/-- The wire description of one driver HTTP call: the POST path segments
appended to the base url (driver_api.rs:51-56) and the optional JSON body
(driver_api.rs:57-67). -/
structure HttpRequestDesc where
  path : List String
  body : Option String
deriving DecidableEq, Repr

/-- `Driver::execute` (driver_api.rs:33-41): POST to `settle/{solution_id}`
with `Option::<&()>::None` as body; the `ExecuteRequest` argument is bound
as `_request` and never read. -/
def driverExecuteDesc (base : List String) (solution_id : String)
    (_req : ExecuteRequest) : HttpRequestDesc :=
  { path := base ++ ["settle", solution_id], body := none }

/-- One tick outcome: `Except.error` models a panic unwinding out of
`single_run`, `Except.ok` a tick that returned normally. -/
abbrev TickResult := Except String Unit

/-- `RunLoop::run_forever` (run_loop.rs:41-46) truncated to its first `n`
ticks: the loop body is `single_run().await` then a sleep, with no
`catch_unwind` anywhere, so a panic unwinds out of the loop and no further
tick runs. -/
def runTicks (tick : Nat → TickResult) : Nat → TickResult
  | 0 => .ok ()
  | n + 1 =>
    match runTicks tick n with
    | .error e => .error e
    | .ok () => tick n

theorem mem_of_getLast?_eq {α : Type} :
    ∀ {l : List α} {w : α}, l.getLast? = some w → w ∈ l
  | [], _, h => by simp at h
  | [a], w, h => by
    simp at h
    simp [h]
  | a :: b :: t, w, h => by
    rw [List.getLast?_cons_cons] at h
    exact List.mem_cons_of_mem a (mem_of_getLast?_eq h)

theorem sorted_rel_getLast {α : Type} {r : α → α → Prop} :
    ∀ {l : List α} {x w : α}, List.Sorted r l → x ∈ l → l.getLast? = some w →
      x = w ∨ r x w
  | [], _, _, _, hx, _ => absurd hx (List.not_mem_nil _)
  | [a], x, w, _, hx, hw => by
    simp at hx hw
    exact Or.inl (hx.trans hw)
  | a :: b :: t, x, w, hs, hx, hw => by
    rw [List.getLast?_cons_cons] at hw
    rcases List.mem_cons.mp hx with hxa | hxt
    · subst hxa
      exact Or.inr ((List.sorted_cons.mp hs).1 w (mem_of_getLast?_eq hw))
    · exact sorted_rel_getLast (List.sorted_cons.mp hs).2 hxt hw

/-- Concrete NaN-scored response used to exhibit the missing finiteness
check. -/
def nanResponse : Response := { id := "1", score := .posNaN }

/-- C2 counterexample: a driver that returns Ok with a NaN score is NOT
dropped: the collection step keeps it, because run_loop.rs:166-175 matches
only on `Ok`/`Err` and never inspects the score.  This falsifies "a response
whose score is NaN is rejected and dropped from the competition". -/
theorem c2_nan_response_is_kept :
    solveCollect [Except.ok nanResponse] = [(0, nanResponse)] ∧
    Score.isFinite nanResponse.score = false :=
  ⟨rfl, rfl⟩

/-- C2 amended: a driver response is classified as a success (and kept for
winner selection) exactly when the driver client returned Ok; the score is
never inspected, so non-finite scores - NaN included - stay in the
competition. -/
theorem c2_success_iff_client_ok (results : List DriverResult)
    (i : Nat) (r : Response) :
    (i, r) ∈ solveCollect results ↔ results[i]? = some (Except.ok r) := by
  unfold solveCollect
  rw [List.mem_filterMap]
  constructor
  · rintro ⟨⟨j, x⟩, hmem, hpick⟩
    cases x with
    | error e => simp at hpick
    | ok resp =>
      simp only [Option.some.injEq, Prod.mk.injEq] at hpick
      obtain ⟨hj, hr⟩ := hpick
      subst hj
      subst hr
      exact List.mk_mem_enum_iff_getElem?.mp hmem
  · intro h
    exact ⟨(i, Except.ok r), List.mk_mem_enum_iff_getElem?.mpr h, rfl⟩

theorem c2_witness :
    (0, nanResponse) ∈ solveCollect [Except.ok nanResponse] :=
  (c2_success_iff_client_ok [Except.ok nanResponse] 0 nanResponse).mpr rfl

/-- C3: whatever permutations the shuffle and the unstable sort produce, the
winner popped from the sorted list (run_loop.rs:77) carries a score that is
total_cmp-greater-or-equal to the score of every collected response. -/
theorem c3_winner_score_ge_all (auction : Auction) (results : List DriverResult)
    (shuffled sorted : List (Nat × Response)) (w : Nat × Response)
    (hsel : selection (solve auction results).1 shuffled sorted)
    (hw : winner sorted = some w) :
    ∀ x ∈ (solve auction results).1, scoreLe x.2.score w.2.score := by
  obtain ⟨hshuf, hsort, hpair⟩ := hsel
  intro x hx
  have hx2 : x ∈ sorted := ((hsort.trans hshuf).mem_iff).mpr hx
  have hlast : sorted.getLast? = some w := hw
  rcases sorted_rel_getLast hpair hx2 hlast with h | h
  · rw [h]
    exact scoreLe_refl _
  · exact h

/-- Concrete competition data: one market order, two drivers with scores 1
and 2. -/
def ord1 : Order := { uid := 1, orderClass := .market }

def auction1 : Auction := { orders := [ord1] }

def respLow : Response := { id := "1", score := .val 1 }

def respHigh : Response := { id := "2", score := .val 2 }

theorem c3_witness : scoreLe respLow.score respHigh.score := by
  have h := c3_winner_score_ge_all auction1 [.ok respLow, .ok respHigh]
    [(1, respHigh), (0, respLow)] [(0, respLow), (1, respHigh)] (1, respHigh)
    ⟨by decide, by decide, by decide⟩ rfl
  exact h (0, respLow) (by decide)

/-- Tied pair used against the stability claim: distinct drivers, equal
scores. -/
def tieA : Nat × Response := (0, { id := "1", score := .val 1 })

def tieB : Nat × Response := (1, { id := "2", score := .val 1 })

/-- C4 counterexample: the sort at run_loop.rs:74 is `sort_unstable_by`, whose
contract only promises a sorted permutation; the outcome below is
contract-compliant yet reverses the post-shuffle order of an equal-score
pair, falsifying "for every pair of responses with equal scores their
relative order after sorting is exactly their relative order after the
shuffle". -/
theorem c4_unstable_sort_counterexample :
    selection (solveCollect [Except.ok tieA.2, Except.ok tieB.2])
      [tieA, tieB] [tieB, tieA] ∧
    tieA.2.score = tieB.2.score ∧
    List.indexOf tieA [tieA, tieB] < List.indexOf tieB [tieA, tieB] ∧
    ¬ List.indexOf tieA [tieB, tieA] < List.indexOf tieB [tieB, tieA] :=
  ⟨⟨by decide, by decide, by decide⟩, rfl, by decide, by decide⟩

/-- C4 amended: the code sorts with `sort_unstable_by`, which guarantees a
sorted permutation but no stability, so the relative order of equal-score
responses after sorting is unspecified.  What does hold: every
contract-compliant outcome of the pipeline carries the same score sequence,
so the scores - in particular the winning score - do not depend on how the
unstable sort broke ties. -/
theorem c4_sorted_scores_unique (collected shuffled1 sorted1 shuffled2 sorted2 :
    List (Nat × Response))
    (h1 : selection collected shuffled1 sorted1)
    (h2 : selection collected shuffled2 sorted2) :
    sorted1.map (fun p => p.2.score) = sorted2.map (fun p => p.2.score) := by
  obtain ⟨p1, q1, s1⟩ := h1
  obtain ⟨p2, q2, s2⟩ := h2
  have hperm : List.Perm sorted1 sorted2 := (q1.trans p1).trans ((q2.trans p2).symm)
  have hm : List.Perm (sorted1.map fun p => p.2.score)
      (sorted2.map fun p => p.2.score) := hperm.map _
  have hs1 : List.Sorted scoreLe (sorted1.map fun p => p.2.score) :=
    List.Pairwise.map _ (fun _ _ hab => hab) s1
  have hs2 : List.Sorted scoreLe (sorted2.map fun p => p.2.score) :=
    List.Pairwise.map _ (fun _ _ hab => hab) s2
  exact List.eq_of_perm_of_sorted hm hs1 hs2

theorem c4_witness :
    ([tieB, tieA].map fun p => p.2.score) = ([tieA, tieB].map fun p => p.2.score) :=
  c4_sorted_scores_unique [tieA, tieB] [tieA, tieB] [tieB, tieA]
    [tieA, tieB] [tieA, tieB]
    ⟨by decide, by decide, by decide⟩ ⟨by decide, by decide, by decide⟩

/-- C5: when every order in the auction has class Liquidity, `solve` returns
the empty result having contacted zero drivers (run_loop.rs:99-108), and no
selection outcome of such a tick issues an execute call
(run_loop.rs:77-88). -/
theorem c5_all_liquidity_skips (auction : Auction) (results : List DriverResult)
    (h : ∀ o ∈ auction.orders, o.orderClass = .liquidity) :
    solve auction results = ([], 0) ∧
    ∀ shuffled sorted : List (Nat × Response),
      selection (solve auction results).1 shuffled sorted →
        executeCallCount sorted = 0 := by
  have hall : allLiquidity auction.orders = true := by
    unfold allLiquidity
    rw [List.all_eq_true]
    intro o ho
    rw [h o ho]
  have hsolve : solve auction results = ([], 0) := by
    unfold solve
    rw [hall]
    simp
  refine ⟨hsolve, ?_⟩
  rintro shuffled sorted ⟨hshuf, hsort, _⟩
  rw [hsolve] at hshuf
  have h1 : shuffled = [] := hshuf.eq_nil
  rw [h1] at hsort
  have h2 : sorted = [] := hsort.eq_nil
  rw [h2]
  rfl

def liqOrder1 : Order := { uid := 1, orderClass := .liquidity }

def liqOrder2 : Order := { uid := 2, orderClass := .liquidity }

/-- The all-liquidity auction of spec §8 scenario 4. -/
def auctionLiq : Auction := { orders := [liqOrder1, liqOrder2] }

theorem c5_witness : solve auctionLiq [Except.ok respLow] = ([], 0) :=
  (c5_all_liquidity_skips auctionLiq [Except.ok respLow] (by decide)).1

theorem scanHashes_found_suffix (env : WaitEnv) (tag : List Nat) :
    ∀ (hashes seen seen2 : List Nat) (tx : Tx),
      scanHashes env tag hashes seen = .ok (some tx, seen2) →
      List.isSuffixOf tag tx.input = true := by
  intro hashes
  induction hashes with
  | nil =>
    intro seen seen2 tx h
    simp [scanHashes] at h
  | cons hh rest ih =>
    intro seen seen2 tx h
    rw [scanHashes] at h
    split at h
    · simp at h
    · exact ih _ _ _ h
    · split at h
      · next hsuf =>
          simp at h
          rw [← h.1]
          exact hsuf
      · exact ih _ _ _ h

theorem waitLoop_found_suffix (env : WaitEnv) (tag : List Nat)
    (start deadline : Nat) :
    ∀ (fuel t : Nat) (seen : List Nat) (tx : Tx),
      waitLoop env tag start deadline fuel t seen = some (.ok (some tx)) →
      List.isSuffixOf tag tx.input = true := by
  intro fuel
  induction fuel with
  | zero =>
    intro t seen tx h
    simp [waitLoop] at h
  | succ f ih =>
    intro t seen tx h
    rw [waitLoop] at h
    split at h
    · simp at h
    · split at h
      · simp at h
      · split at h
        · simp at h
        · next tx2 seen3 heq =>
            simp at h
            rw [← h]
            exact scanHashes_found_suffix env tag _ _ _ tx2 heq
        · exact ih _ _ _ h

/-- C6: whenever `wait_for_settlement_transaction` returns `Ok(Some(tx))` -
in any environment, with any window parameters and any amount of fuel - the
calldata `tx.input` ends with the requested tag, because the only `Some`
exit is guarded by `tx.input.0.ends_with(tag)` at run_loop.rs:256-258. -/
theorem c6_returned_tx_ends_with_tag (env : WaitEnv) (tag : List Nat)
    (startOffset maxWaitBlocks fuel : Nat) (tx : Tx)
    (h : wait_for_settlement_transaction env tag startOffset maxWaitBlocks fuel =
      some (.ok (some tx))) :
    List.isSuffixOf tag tx.input = true := by
  unfold wait_for_settlement_transaction at h
  exact waitLoop_found_suffix env tag _ _ fuel 0 [] tx h

/-- Transaction and environment in which the loop body actually runs (the
block number jumps from 100 to 200 between the window computation and the
first loop check, so the as-written condition `current ≤ deadline` is false
and the body executes and finds the tagged transaction). -/
def c6Tx : Tx := { hash := 5, input := [7, 0, 42] }

def c6Env : WaitEnv :=
  { blocks := fun t => if t = 0 then 100 else 200
    recent := fun _ _ _ => .ok [5]
    txLookup := fun h => if h = 5 then .ok (some c6Tx) else .ok none }

theorem c6_witness : List.isSuffixOf [0, 42] c6Tx.input = true :=
  c6_returned_tx_ends_with_tag c6Env [0, 42] 64 30 3 c6Tx (by rfl)

/-- The C1 failing input: the chain sits at block 100 throughout, the event
index lists hash 1, and transaction 1 carries the tag - yet the loop breaks
immediately. -/
def c1Tx : Tx := { hash := 1, input := [0, 0, 0, 0, 0, 0, 0, 42] }

def c1Tag : List Nat := [0, 0, 0, 0, 0, 0, 0, 42]

def c1Env : WaitEnv :=
  { blocks := fun _ => 100
    recent := fun _ _ _ => .ok [1]
    txLookup := fun h => if h = 1 then .ok (some c1Tx) else .ok none }

/-- C1: evaluation of the code at the failing input.  With the chain at
block 100 (so deadline = 150 after saturating-add of maxWaitBlocks = 50...
here maxWaitBlocks = 30, deadline = 130) and a tagged settlement transaction
already indexed, the loop's first check `current_block ≤ deadline`
(run_loop.rs:237) is TRUE, so the code breaks and returns `Ok(None)` at
once - it neither queries the event index nor fetches the transaction,
the inverse of the specified `current_block > deadline ⇒ stop`. -/
theorem c1_returns_none_while_within_deadline :
    wait_for_settlement_transaction c1Env c1Tag 64 30 5 = some (.ok none) ∧
    c1Env.blocks 1 ≤ u64SatAdd (c1Env.blocks 0) 30 ∧
    c1Env.recent 0 (c1Env.blocks 0 - 64) (u64SatAdd (c1Env.blocks 0) 30 + 1) =
      .ok [1] ∧
    c1Env.txLookup 1 = .ok (some c1Tx) ∧
    List.isSuffixOf c1Tag c1Tx.input = true :=
  ⟨rfl, by decide, rfl, rfl, rfl⟩

theorem natToBeBytes_length : ∀ (n v : Nat), (natToBeBytes n v).length = n := by
  intro n
  induction n with
  | zero =>
    intro v
    rfl
  | succ m ih =>
    intro v
    simp [natToBeBytes, ih]

theorem beBytesToNat_append (l : List Nat) (b : Nat) :
    beBytesToNat (l ++ [b]) = beBytesToNat l * 256 + b := by
  unfold beBytesToNat
  rw [List.foldl_append]
  rfl

theorem beBytesToNat_natToBeBytes : ∀ (n v : Nat), v < 256 ^ n →
    beBytesToNat (natToBeBytes n v) = v := by
  intro n
  induction n with
  | zero =>
    intro v hv
    have h0 : v = 0 := Nat.lt_one_iff.mp hv
    rw [h0]
    rfl
  | succ m ih =>
    intro v hv
    have h2 : v / 256 < 256 ^ m := by
      rw [Nat.div_lt_iff_lt_mul (by norm_num : 0 < 256)]
      rw [pow_succ] at hv
      exact hv
    rw [natToBeBytes, beBytesToNat_append, ih (v / 256) h2]
    omega

/-- C7: the ExecuteRequest built at run_loop.rs:187-190 carries
`transaction_identifier = auction_id.to_be_bytes()`: 8 bytes, big-endian
(decoding them back yields the id), and for auction id 42 they are
0x000000000000002a. -/
theorem c7_transaction_identifier_be_bytes (id : AuctionId) (h : id < 2 ^ 64) :
    (executeRequest id).transaction_identifier.length = 8 ∧
    beBytesToNat (executeRequest id).transaction_identifier = id ∧
    (executeRequest 42).transaction_identifier = [0, 0, 0, 0, 0, 0, 0, 42] := by
  refine ⟨natToBeBytes_length 8 id, ?_, by decide⟩
  have hpow : (256 : Nat) ^ 8 = 2 ^ 64 := by norm_num
  exact beBytesToNat_natToBeBytes 8 id (by rw [hpow]; exact h)

theorem c7_witness :
    beBytesToNat (executeRequest 42).transaction_identifier = 42 :=
  (c7_transaction_identifier_be_bytes 42 (by norm_num)).2.1

/-- C8: classification of a driver HTTP round-trip that received a response:
a non-200 status fails carrying the status code and the body; a 200 status
yields the JSON-decoded body, or a decode error naming the body when
deserialisation fails. -/
theorem c8_request_response_classification {R : Type} (decode : String → Option R)
    (resp : HttpResponse) :
    (resp.status ≠ 200 →
      request_response decode (.ok resp) =
        .error (.badStatus resp.status resp.body)) ∧
    (resp.status = 200 → ∀ r : R,
      (decode resp.body = some r → request_response decode (.ok resp) = .ok r) ∧
      (decode resp.body = none →
        request_response decode (.ok resp) = .error (.badJson resp.body))) := by
  constructor
  · intro h
    simp only [request_response]
    rw [if_pos h]
  · intro h r
    constructor
    · intro hr
      simp only [request_response]
      rw [if_neg (fun hne => hne h), hr]
    · intro hn
      simp only [request_response]
      rw [if_neg (fun hne => hne h), hn]

def c8decode : String → Option Nat := fun s => some s.length

def resp200 : HttpResponse := { status := 200, body := "ok" }

def resp500 : HttpResponse := { status := 500, body := "boom" }

theorem c8_witness :
    request_response c8decode (.ok resp500) = .error (.badStatus 500 "boom") ∧
    request_response c8decode (.ok resp200) = .ok 2 :=
  ⟨(c8_request_response_classification c8decode resp500).1 (by decide),
   ((c8_request_response_classification c8decode resp200).2 rfl 2).1 rfl⟩

def panicTick : Nat → TickResult := fun _ => .error "panic"

/-- C9 counterexample: `run_forever` (run_loop.rs:41-46) contains no
`catch_unwind`; a tick that panics unwinds out of the loop, after which no
further tick runs.  This falsifies "a panic within a tick is caught at the
tick boundary ... never propagated out of the loop". -/
theorem c9_panic_escapes_loop : runTicks panicTick 1 = .error "panic" := rfl

/-- C9 amended: a panic inside a tick is NOT caught at the tick boundary:
the loop keeps running exactly as long as every tick returns normally, and
the first panicking tick propagates its panic out of `run_forever`. -/
theorem c9_no_catch_at_tick_boundary (tick : Nat → TickResult) (n : Nat) :
    ((∀ i, i < n → tick i = .ok ()) → runTicks tick n = .ok ()) ∧
    (∀ i p, i < n → tick i = .error p → (∀ j, j < i → tick j = .ok ()) →
      runTicks tick n = .error p) := by
  induction n with
  | zero =>
    constructor
    · intro _
      rfl
    · intro i p hi
      exact absurd hi (Nat.not_lt_zero i)
  | succ m ih =>
    constructor
    · intro h
      have hm := ih.1 (fun i hi => h i (Nat.lt_succ_of_lt hi))
      simp only [runTicks, hm]
      exact h m (Nat.lt_succ_self m)
    · intro i p hi hp hpre
      rcases Nat.lt_succ_iff_lt_or_eq.mp hi with hlt | heq
      · have hrun := ih.2 i p hlt hp hpre
        simp only [runTicks, hrun]
      · subst heq
        have hm := ih.1 hpre
        simp only [runTicks, hm]
        exact hp

def okTick : Nat → TickResult := fun _ => .ok ()

def mixedTick : Nat → TickResult := fun i => if i = 1 then .error "boom" else .ok ()

theorem c9_witness :
    runTicks okTick 3 = .ok () ∧ runTicks mixedTick 4 = .error "boom" :=
  ⟨(c9_no_catch_at_tick_boundary okTick 3).1 (fun _ _ => rfl),
   (c9_no_catch_at_tick_boundary mixedTick 4).2 1 "boom" (by omega) rfl
     (fun j hj => by
       have hj0 : j = 0 := Nat.lt_one_iff.mp hj
       rw [hj0]
       rfl)⟩

/-- C10: the wire request of `Driver::execute` does not depend on the
`ExecuteRequest` argument - any two requests (hence any two transaction
identifiers) produce the identical body-less POST to `settle/{solution_id}`;
the identifier is never transmitted to the driver. -/
theorem c10_execute_wire_request_ignores_identifier (base : List String)
    (sid : String) (r1 r2 : ExecuteRequest) :
    driverExecuteDesc base sid r1 = driverExecuteDesc base sid r2 ∧
    (driverExecuteDesc base sid r1).body = none ∧
    (driverExecuteDesc base sid r1).path = base ++ ["settle", sid] :=
  ⟨rfl, rfl, rfl⟩
